import Mathlib

/-!
Verification of the Chronicle vault frontend stores against their
natural-language specification.  The definitions below are shallow
embeddings of the TypeScript sources:

* `src/lib/stores/sync.ts`    — the sync store (push / pull / sync / syncState)
* `src/lib/stores/search.ts`  — the search store
* `src/lib/stores/editor.ts`  — the editor store
* the vault store (`openVault`)
* `src/lib/plugins/loader.ts` — `validateManifest` / `validateSettingDef`
* `src/lib/components/editor/wikiLinkPlugin.ts` — the wiki-link recogniser

Backend calls (`api.*`, which cross the Tauri boundary) are modelled as
environments carrying the result each call would return; every store
operation additionally returns the trace of backend calls it issued.
-/

namespace Chronicle

/-! ## Data model (types matching the Rust structs, from `src/lib/api/tauri.ts`
and the fields the sync store reads from `SyncStatus` / `SyncResult`). -/

/-- `SyncStatus` as consumed by the sync store: initialized flag, optional
remote, branch, ahead/behind counts, dirty flag, conflicted paths,
last-sync timestamp. -/
structure SyncStatus where
  initialized : Bool
  remote_url : Option String
  branch : String
  ahead : Nat
  behind : Nat
  dirty : Bool
  conflicts : List String
  last_sync : Option String
deriving DecidableEq, Repr

/-- `SyncResult` as consumed by the sync store (`result.success`,
`result.conflicts`). -/
structure SyncResult where
  success : Bool
  message : Option String
  conflicts : List String
deriving DecidableEq, Repr

/-- `ConflictInfo`: a conflicted path with both content snapshots. -/
structure ConflictInfo where
  path : String
  local_content : String
  remote_content : String
deriving DecidableEq, Repr

/-- The writable stores of `src/lib/stores/sync.ts`:
`syncStatus`, `isSyncing`, `syncError`, `currentConflict`. -/
structure SyncStoreState where
  syncStatus : Option SyncStatus
  isSyncing : Bool
  syncError : Option String
  currentConflict : Option ConflictInfo
deriving DecidableEq, Repr

/-- Initial values of the writable stores
(`writable(null)`, `writable(false)`, `writable(null)`, `writable(null)`). -/
def initialSyncStore : SyncStoreState :=
  { syncStatus := none, isSyncing := false, syncError := none,
    currentConflict := none }

/-- One backend (Tauri `invoke`) call, for call traces. -/
inductive ApiCall where
  | syncPull
  | syncPush
  | syncStatusCall
  | syncGetConflict (path : String)
  | searchNotes (query : String) (limit : Nat)
  | saveNoteCall (path content : String)
  | deleteNoteCall (path : String)
  | listNotesCall
  | openVaultCall (path : String)
deriving DecidableEq, Repr

/-- JavaScript truthiness of a `string | null` value: `null` and the empty
string are falsy. -/
def truthyStr : Option String → Bool
  | none => false
  | some s => !s.isEmpty

/-! ## Sync store operations (`src/lib/stores/sync.ts`).

Each backend call's outcome is supplied by an environment; `.error e`
models the promise rejecting with message `e`. -/

/-- Environment for one `push()` invocation: the results of
`api.syncPush()` and of the `api.syncStatus()` inside `refreshStatus()`. -/
structure PushEnv where
  pushResult : Except String SyncResult
  statusResult : Except String SyncStatus

/-- Environment for one `pull()` invocation: the results of
`api.syncPull()`, of `api.syncStatus()` inside `refreshStatus()`, and of
`api.syncGetConflict(path)` inside `loadConflict`. -/
structure PullEnv where
  pullResult : Except String SyncResult
  statusResult : Except String SyncStatus
  getConflictResult : String → Except String ConflictInfo

/-- Environment for one `sync()` invocation (a pull then possibly a push). -/
structure SyncEnv where
  pullEnv : PullEnv
  pushEnv : PushEnv

/-- `refreshStatus()`: on success store the status and clear the error;
on failure record the error message. Returns the issued calls. -/
def refreshStatus (r : Except String SyncStatus) (s : SyncStoreState) :
    SyncStoreState × List ApiCall :=
  match r with
  | .ok st => ({ s with syncStatus := some st, syncError := none },
      [ApiCall.syncStatusCall])
  | .error e => ({ s with syncError := some e }, [ApiCall.syncStatusCall])

/-- `loadConflict(path)`: fetch the conflict info, storing it in
`currentConflict`; on failure record the error message. -/
def loadConflict (env : String → Except String ConflictInfo) (path : String)
    (s : SyncStoreState) : SyncStoreState × List ApiCall :=
  match env path with
  | .ok c => ({ s with currentConflict := some c },
      [ApiCall.syncGetConflict path])
  | .error e => ({ s with syncError := some e },
      [ApiCall.syncGetConflict path])

/-- `push()`: set `isSyncing`, clear `syncError`, call `api.syncPush()`;
on success refresh the status and return the result, on rejection record
the error and return `null` (`none`); `isSyncing` is reset in `finally`. -/
def push (env : PushEnv) (s : SyncStoreState) :
    SyncStoreState × Option SyncResult × List ApiCall :=
  let s1 := { s with isSyncing := true, syncError := none }
  match env.pushResult with
  | .ok result =>
    let (s2, t) := refreshStatus env.statusResult s1
    ({ s2 with isSyncing := false }, some result, ApiCall.syncPush :: t)
  | .error e =>
    ({ s1 with syncError := some e, isSyncing := false }, none,
      [ApiCall.syncPush])

/-- `pull()`: set `isSyncing`, clear `syncError`, call `api.syncPull()`;
on success refresh the status and, if the result lists conflicts, load
the first one; on rejection record the error and return `null`. -/
def pull (env : PullEnv) (s : SyncStoreState) :
    SyncStoreState × Option SyncResult × List ApiCall :=
  let s1 := { s with isSyncing := true, syncError := none }
  match env.pullResult with
  | .ok result =>
    let (s2, t2) := refreshStatus env.statusResult s1
    match result.conflicts with
    | c :: _ =>
      let (s3, t3) := loadConflict env.getConflictResult c s2
      ({ s3 with isSyncing := false }, some result,
        ApiCall.syncPull :: (t2 ++ t3))
    | [] => ({ s2 with isSyncing := false }, some result,
        ApiCall.syncPull :: t2)
  | .error e =>
    ({ s1 with syncError := some e, isSyncing := false }, none,
      [ApiCall.syncPull])

/-- `sync()`: pull first; if the pull returned `null` or `success` is
false, stop; then read `syncStatus` — the guard
`status?.conflicts.length ?? 0 > 0` parses as
`(status?.conflicts.length) ?? (0 > 0)`, so it is truthy exactly when a
status is present with a non-empty conflict list — and if it is truthy
return the pull result without pushing; otherwise push. -/
def sync (env : SyncEnv) (s : SyncStoreState) :
    SyncStoreState × Option SyncResult × List ApiCall :=
  let (s1, pr, t1) := pull env.pullEnv s
  match pr with
  | none => (s1, none, t1)
  | some result =>
    if result.success = false then (s1, some result, t1)
    else
      match s1.syncStatus with
      | some st =>
        if st.conflicts.length ≠ 0 then (s1, some result, t1)
        else
          let (s2, pr2, t2) := push env.pushEnv s1
          (s2, pr2, t1 ++ t2)
      | none =>
        let (s2, pr2, t2) := push env.pushEnv s1
        (s2, pr2, t1 ++ t2)

/-- The derived `syncState` indicator of `src/lib/stores/sync.ts`:
syncing, then error, then uninitialized, then conflict, then pending,
else synced. -/
def syncState (s : SyncStoreState) : String :=
  if s.isSyncing then "syncing"
  else if truthyStr s.syncError then "error"
  else
    match s.syncStatus with
    | none => "uninitialized"
    | some st =>
      if !st.initialized then "uninitialized"
      else if st.conflicts.length > 0 then "conflict"
      else if st.dirty || st.ahead > 0 || st.behind > 0 then "pending"
      else "synced"

/-- The derived `hasConflicts` store: `($status?.conflicts.length ?? 0) > 0`. -/
def hasConflicts (s : SyncStoreState) : Bool :=
  match s.syncStatus with
  | none => false
  | some st => st.conflicts.length > 0

/-! ## Modelled backend `sync_push` (the Rust command is not under `src/`). -/

/-- Modelled from the spec: the backend `sync_push` command, whose Rust
implementation is not under `src/`. Spec 4.7: "push(): auto-commits all
outstanding local changes ..., then uploads to the remote; a no-op
commit (nothing dirty) is treated as success, not error. Refused while
conflicts exist." The backend state is its `SyncStatus`. -/
def spec_sync_push (b : SyncStatus) : Except String (SyncResult × SyncStatus) :=
  if b.conflicts.length > 0 then
    Except.error "MergeConflict: push refused while conflicts exist"
  else
    Except.ok ({ success := true, message := none, conflicts := [] },
      { b with dirty := false, ahead := 0 })

/-- The push environment induced by running the store `push()` against the
modelled backend in state `b`: `api.syncPush()` returns what
`spec_sync_push` yields, and `api.syncStatus()` reports the (possibly
updated) backend status. -/
def pushEnvOfBackend (b : SyncStatus) : PushEnv :=
  { pushResult :=
      match spec_sync_push b with
      | .ok (r, _) => Except.ok r
      | .error e => Except.error e,
    statusResult :=
      match spec_sync_push b with
      | .ok (_, b2) => Except.ok b2
      | .error _ => Except.ok b }

/-! ## Concrete fixtures used by witnesses and counterexamples. -/

/-- A concrete initialized status with one conflicted path. -/
def cexStatus : SyncStatus :=
  { initialized := true, remote_url := some "https://example.com/repo.git",
    branch := "main", ahead := 0, behind := 1, dirty := false,
    conflicts := ["note.md"], last_sync := none }

/-- A pull environment whose backend pull rejects with an auth error. -/
def cexFailPullEnv : PullEnv :=
  { pullResult := Except.error "Auth error",
    statusResult := Except.ok cexStatus,
    getConflictResult := fun _ => Except.error "Auth error" }

/-- A pull environment where the pull succeeds and reports a conflict,
the status refresh succeeds, but fetching the conflict body fails. -/
def cexConflictPullEnv : PullEnv :=
  { pullResult :=
      Except.ok { success := true, message := none, conflicts := ["note.md"] },
    statusResult := Except.ok cexStatus,
    getConflictResult := fun _ => Except.error "network error" }

/-! ## Helper lemmas about the sync operations. -/

/-- `pull` always issues its backend pull first and never issues a push. -/
theorem pull_trace_shape (env : PullEnv) (s : SyncStoreState) :
    (∃ t, (pull env s).2.2 = ApiCall.syncPull :: t) ∧
    ApiCall.syncPush ∉ (pull env s).2.2 := by
  rcases hp : env.pullResult with e | r
  · simp [pull, hp]
  · rcases hs : env.statusResult with e' | st <;>
      rcases hc : r.conflicts with _ | ⟨c, cs⟩
    · simp [pull, hp, hs, hc, refreshStatus]
    · rcases hg : env.getConflictResult c with eg | cg <;>
        simp [pull, hp, hs, hc, hg, refreshStatus, loadConflict]
    · simp [pull, hp, hs, hc, refreshStatus]
    · rcases hg : env.getConflictResult c with eg | cg <;>
        simp [pull, hp, hs, hc, hg, refreshStatus, loadConflict]

/-- `push` always issues its backend push as its first call. -/
theorem push_trace_shape (env : PushEnv) (s : SyncStoreState) :
    ∃ t, (push env s).2.2 = ApiCall.syncPush :: t := by
  rcases hp : env.pushResult with e | r
  · simp [push, hp]
  · rcases hs : env.statusResult with e' | st <;>
      simp [push, hp, hs, refreshStatus]

/-- `pull` returns `some r` exactly when the backend pull resolved with `r`. -/
theorem pull_result_ok (env : PullEnv) (s : SyncStoreState) (r : SyncResult) :
    (pull env s).2.1 = some r ↔ env.pullResult = Except.ok r := by
  rcases hp : env.pullResult with e | r0
  · simp [pull, hp]
  · rcases hs : env.statusResult with e' | st <;>
      rcases hc : r0.conflicts with _ | ⟨c, cs⟩
    · simp [pull, hp, hs, hc, refreshStatus]
    · rcases hg : env.getConflictResult c with eg | cg <;>
        simp [pull, hp, hs, hc, hg, refreshStatus, loadConflict]
    · simp [pull, hp, hs, hc, refreshStatus]
    · rcases hg : env.getConflictResult c with eg | cg <;>
        simp [pull, hp, hs, hc, hg, refreshStatus, loadConflict]

/-- C1: every `sync()` invocation pulls first (its backend trace starts
with the pull call), and a backend push is attempted exactly when the
pull resolved with `success = true` and the post-pull sync status, if
present, has an empty conflict set; in particular a rejected or
unsuccessful pull, or unresolved conflicts left by the pull, mean no
push is attempted. -/
theorem sync_pull_first_push_guard (env : SyncEnv) (s : SyncStoreState) :
    (∃ t, (sync env s).2.2 = ApiCall.syncPull :: t) ∧
    (ApiCall.syncPush ∈ (sync env s).2.2 ↔
      ((∃ r, (pull env.pullEnv s).2.1 = some r ∧ r.success = true) ∧
        ∀ st, (pull env.pullEnv s).1.syncStatus = some st →
          st.conflicts = [])) := by
  obtain ⟨tp, hpm⟩ := push_trace_shape env.pushEnv (pull env.pullEnv s).1
  obtain ⟨⟨t1r, hhead⟩, hnopush⟩ := pull_trace_shape env.pullEnv s
  simp only [sync]
  rcases hP : pull env.pullEnv s with ⟨s1, pr, t1⟩
  rw [hP] at hpm hhead hnopush
  simp only at hpm hhead hnopush ⊢
  subst hhead
  cases pr with
  | none => simp [hnopush]
  | some result =>
    cases hres : result.success with
    | false => simp [hres, hnopush]
    | true =>
      cases hst : s1.syncStatus with
      | none => simp [hres, hst, hpm]
      | some st =>
        rcases hcl : st.conflicts with _ | ⟨c, cs⟩
        · simp [hres, hst, hcl, hpm]
        · simp [hres, hst, hcl, hnopush]

/-- A concrete full-sync environment: the pull succeeds but reports a
conflict, and a (never reached) push environment. -/
def cexSyncEnv : SyncEnv :=
  { pullEnv := cexConflictPullEnv,
    pushEnv :=
      { pushResult :=
          Except.ok { success := true, message := none, conflicts := [] },
        statusResult := Except.ok cexStatus } }

/-- Witness for C1 at a concrete environment whose pull succeeds but
leaves a conflict: the trace starts with the pull and contains no push. -/
theorem sync_pull_first_push_guard_witness :
    (∃ t, (sync cexSyncEnv initialSyncStore).2.2 =
      ApiCall.syncPull :: t) ∧
    (ApiCall.syncPush ∈ (sync cexSyncEnv initialSyncStore).2.2 ↔
      ((∃ r, (pull cexSyncEnv.pullEnv initialSyncStore).2.1 = some r ∧
          r.success = true) ∧
        ∀ st, (pull cexSyncEnv.pullEnv initialSyncStore).1.syncStatus =
            some st → st.conflicts = [])) :=
  sync_pull_first_push_guard cexSyncEnv initialSyncStore

/-- C4: when the backend push or pull rejects (network/authentication
failure), the store operation returns `null`, records the message in
`syncError`, issues no further backend call, and leaves `syncStatus`
(hence the conflict set and ahead/behind counts) and `currentConflict`
untouched, with `isSyncing` reset to false. -/
theorem push_pull_error_frame (penv : PushEnv) (plenv : PullEnv)
    (s : SyncStoreState) (e e' : String)
    (hpush : penv.pushResult = Except.error e)
    (hpull : plenv.pullResult = Except.error e') :
    push penv s =
      ({ s with isSyncing := false, syncError := some e }, none,
        [ApiCall.syncPush]) ∧
    pull plenv s =
      ({ s with isSyncing := false, syncError := some e' }, none,
        [ApiCall.syncPull]) := by
  constructor
  · simp [push, hpush]
  · simp [pull, hpull]

/-- Witness for C4 at a concrete failing backend. -/
theorem push_pull_error_frame_witness :
    push { pushResult := Except.error "Network error",
           statusResult := Except.ok cexStatus } initialSyncStore =
      ({ initialSyncStore with
          isSyncing := false,
          syncError := some "Network error" }, none, [ApiCall.syncPush]) ∧
    pull cexFailPullEnv initialSyncStore =
      ({ initialSyncStore with
          isSyncing := false,
          syncError := some "Auth error" }, none, [ApiCall.syncPull]) :=
  push_pull_error_frame _ _ initialSyncStore "Network error" "Auth error"
    rfl rfl

/-- C2 counterexample: a reachable, quiescent store state in which the
conflict set is non-empty but the derived indicator is "error", not
"conflict". It is reached from the initial store by a `pull()` whose
backend pull succeeds reporting a conflict and whose status refresh
succeeds, but whose `syncGetConflict` fetch rejects: `loadConflict`
records the error, and the error check precedes the conflict check in
`syncState`. -/
theorem syncState_conflict_counterexample :
    ((pull cexConflictPullEnv initialSyncStore).1.isSyncing = false) ∧
    hasConflicts (pull cexConflictPullEnv initialSyncStore).1 = true ∧
    syncState (pull cexConflictPullEnv initialSyncStore).1 = "error" ∧
    syncState (pull cexConflictPullEnv initialSyncStore).1 ≠ "conflict" := by
  refine ⟨rfl, rfl, rfl, ?_⟩
  decide

/-- C2 amended: the indicator equals "conflict" only when a status is
present with a non-empty conflict set (so an empty conflict set never
shows "conflict"); conversely, a non-empty conflict set yields the
"conflict" indicator provided no operation is in flight, no non-empty
error message is recorded, and the status is initialized. -/
theorem syncState_conflict_characterization (s : SyncStoreState) :
    (syncState s = "conflict" → hasConflicts s = true) ∧
    (hasConflicts s = true → s.isSyncing = false →
      truthyStr s.syncError = false →
      (∀ st, s.syncStatus = some st → st.initialized = true) →
      syncState s = "conflict") := by
  constructor
  · intro h
    simp only [syncState] at h
    split at h
    · exact absurd h (by decide)
    · split at h
      · exact absurd h (by decide)
      · split at h
        · exact absurd h (by decide)
        · next stv hst =>
          simp only [hasConflicts, hst]
          by_cases hi : stv.initialized
          · rw [if_neg (by simp [hi])] at h
            by_cases hcl : stv.conflicts.length > 0
            · simpa using hcl
            · rw [if_neg (by simpa using hcl)] at h
              split at h <;> exact absurd h (by decide)
          · rw [if_pos (by simp [hi])] at h
            exact absurd h (by decide)
  · intro hc hsy he hini
    rcases hst : s.syncStatus with _ | stv
    · simp [hasConflicts, hst] at hc
    · have hi := hini stv hst
      have hcl : stv.conflicts.length > 0 := by
        simpa [hasConflicts, hst] using hc
      simp [syncState, hsy, he, hst, hi, hcl]

/-- Witness for the C2 amended theorem at a concrete quiescent
conflicted state. -/
theorem syncState_conflict_witness :
    syncState { syncStatus := some cexStatus, isSyncing := false,
                syncError := none, currentConflict := none } = "conflict" :=
  (syncState_conflict_characterization _).2 rfl rfl rfl
    (fun _ h => by cases h; rfl)

/-- C3 (backend modelled from the spec): while the conflict set is
non-empty, `sync_push` is refused — it commits and uploads nothing
(returns an error and no new backend state) — and the store-level
`push()` run against it returns `null` and leaves the stored sync
status unchanged. -/
theorem push_refused_while_conflicts (b : SyncStatus) (s : SyncStoreState)
    (h : b.conflicts ≠ []) :
    (∃ e, spec_sync_push b = Except.error e) ∧
    (push (pushEnvOfBackend b) s).2.1 = none ∧
    (push (pushEnvOfBackend b) s).1.syncStatus = s.syncStatus := by
  have hlen : b.conflicts.length > 0 := by
    cases hc : b.conflicts with
    | nil => exact absurd hc h
    | cons c cs => simp [hc]
  refine ⟨⟨"MergeConflict: push refused while conflicts exist", ?_⟩, ?_, ?_⟩
  · simp [spec_sync_push, hlen]
  · simp [push, pushEnvOfBackend, spec_sync_push, hlen]
  · simp [push, pushEnvOfBackend, spec_sync_push, hlen]

/-- Witness for C3 at the concrete conflicted backend status. -/
theorem push_refused_while_conflicts_witness :
    (∃ e, spec_sync_push cexStatus = Except.error e) ∧
    (push (pushEnvOfBackend cexStatus) initialSyncStore).2.1 = none ∧
    (push (pushEnvOfBackend cexStatus) initialSyncStore).1.syncStatus =
      initialSyncStore.syncStatus :=
  push_refused_while_conflicts cexStatus initialSyncStore (by decide)

/-! ## Search store (`src/lib/stores/search.ts`). -/

/-- `SearchResult` rows returned by the backend full-text search. -/
structure SearchResult where
  id : Nat
  path : String
  title : String
  snippet : String
  rank : Int
  match_count : Nat
deriving DecidableEq, Repr

/-- ECMAScript whitespace for `String.prototype.trim`: WhiteSpace
(TAB, VT, FF, SP, NBSP, ZWNBSP, Unicode space separators) and
LineTerminator (LF, CR, LS, PS). -/
def jsWhitespace (c : Char) : Bool :=
  c.toNat = 0x9 || c.toNat = 0xA || c.toNat = 0xB || c.toNat = 0xC ||
  c.toNat = 0xD || c.toNat = 0x20 || c.toNat = 0xA0 || c.toNat = 0x1680 ||
  (0x2000 ≤ c.toNat && c.toNat ≤ 0x200A) || c.toNat = 0x2028 ||
  c.toNat = 0x2029 || c.toNat = 0x202F || c.toNat = 0x205F ||
  c.toNat = 0x3000 || c.toNat = 0xFEFF

/-- `String.prototype.trim`: strip leading and trailing whitespace. -/
def jsTrim (s : String) : String :=
  ⟨((s.data.dropWhile jsWhitespace).reverse.dropWhile jsWhitespace).reverse⟩

/-- The writable stores of `src/lib/stores/search.ts` plus the module's
`searchTimeout` debounce slot, represented by the query whose
`performSearch` is scheduled (if any). -/
structure SearchStoreState where
  searchQuery : String
  searchResults : List SearchResult
  isSearching : Bool
  pendingSearch : Option String
deriving DecidableEq, Repr

/-- `setSearchQuery(query)`: store the query, clear any pending timeout;
if the trimmed query is empty (falsy) clear the results and return
without scheduling; otherwise schedule `performSearch(query)`. -/
def setSearchQuery (query : String) (s : SearchStoreState) : SearchStoreState :=
  let s1 := { s with searchQuery := query, pendingSearch := none }
  if (jsTrim query).isEmpty then { s1 with searchResults := [] }
  else { s1 with pendingSearch := some query }

/-- `performSearch(query)`: if the trimmed query is empty, clear the
results and issue no backend call; otherwise call
`api.searchNotes(query, 20)`, storing the results on success and `[]` on
failure (the error is only logged). The transient `isSearching` toggle
is collapsed to its value at completion. -/
def performSearch (env : String → Except String (List SearchResult))
    (query : String) (s : SearchStoreState) :
    SearchStoreState × List ApiCall :=
  if (jsTrim query).isEmpty then ({ s with searchResults := [] }, [])
  else
    match env query with
    | .ok results =>
      ({ s with isSearching := false, searchResults := results },
        [ApiCall.searchNotes query 20])
    | .error _ =>
      ({ s with isSearching := false, searchResults := [] },
        [ApiCall.searchNotes query 20])

/-- Trimming a string of whitespace only (or empty) yields the empty
string. -/
theorem jsTrim_isEmpty_of_all_whitespace (q : String)
    (h : ∀ c ∈ q.data, jsWhitespace c = true) : (jsTrim q).isEmpty = true := by
  have hd : q.data.dropWhile jsWhitespace = [] :=
    List.dropWhile_eq_nil_iff.mpr h
  simp [jsTrim, hd, String.isEmpty]

/-- C5: for a query that is empty or whitespace-only, `setSearchQuery`
clears the results and schedules no search, and `performSearch` clears
the results and issues no backend call — an empty result list, no
error. -/
theorem empty_query_returns_empty (q : String) (s : SearchStoreState)
    (env : String → Except String (List SearchResult))
    (h : ∀ c ∈ q.data, jsWhitespace c = true) :
    setSearchQuery q s =
      { s with
          searchQuery := q,
          pendingSearch := none,
          searchResults := [] } ∧
    performSearch env q s = ({ s with searchResults := [] }, []) := by
  have ht := jsTrim_isEmpty_of_all_whitespace q h
  constructor
  · simp [setSearchQuery, ht]
  · simp [performSearch, ht]

/-- Witness for C5 at the whitespace query from the spec example. -/
theorem empty_query_returns_empty_witness :
    setSearchQuery "   "
        { searchQuery := "", searchResults := [], isSearching := false,
          pendingSearch := none } =
      { searchQuery := "   ", searchResults := [], isSearching := false,
        pendingSearch := none } ∧
    performSearch (fun _ => Except.ok []) "   "
        { searchQuery := "", searchResults := [], isSearching := false,
          pendingSearch := none } =
      ({ searchQuery := "", searchResults := [], isSearching := false,
          pendingSearch := none }, []) :=
  empty_query_returns_empty "   " _ _ (by decide)

/-! ## Vault and editor stores (`src/lib/stores/vault.ts`,
`src/lib/stores/editor.ts`). -/

/-- `VaultInfo` returned by `open_vault` / `get_vault_info`. -/
structure VaultInfo where
  path : String
  note_count : Nat
  is_open : Bool
deriving DecidableEq, Repr

/-- `NoteMeta` rows returned by `list_notes`. -/
structure NoteMeta where
  id : Nat
  path : String
  title : String
  word_count : Nat
  created_at : Option String
  modified_at : Option String
deriving DecidableEq, Repr

/-- A full `Note` (`NoteMeta` plus content and tags). -/
structure Note where
  id : Nat
  path : String
  title : String
  word_count : Nat
  created_at : Option String
  modified_at : Option String
  content : String
  tags : List String
deriving DecidableEq, Repr

/-- A `Backlink` row returned by `get_backlinks`. -/
structure Backlink where
  source_path : String
  source_title : String
  line_number : Option Nat
  display_text : Option String
  context : Option String
deriving DecidableEq, Repr

/-- The writable stores of the vault store module:
`vaultInfo`, `notes`, `isLoading`, `error`. -/
structure VaultStoreState where
  vaultInfo : Option VaultInfo
  notes : List NoteMeta
  isLoading : Bool
  error : Option String
deriving DecidableEq, Repr

/-- Environment for one `openVault` invocation: the results of
`api.openVault(path)` and `api.listNotes()`. -/
structure OpenVaultEnv where
  openResult : Except String VaultInfo
  listResult : Except String (List NoteMeta)

/-- `openVault(path)`: set `isLoading`, clear `error`; on success store
the vault info and the note list; on rejection record the message and
re-throw (the `Except.error` result); `isLoading` is reset in
`finally`. -/
def openVault (env : OpenVaultEnv) (path : String) (v : VaultStoreState) :
    VaultStoreState × Except String Unit × List ApiCall :=
  let v1 := { v with isLoading := true, error := none }
  match env.openResult with
  | .error e =>
    ({ v1 with error := some e, isLoading := false }, .error e,
      [ApiCall.openVaultCall path])
  | .ok info =>
    let v2 := { v1 with vaultInfo := some info }
    match env.listResult with
    | .ok ns =>
      ({ v2 with notes := ns, isLoading := false }, .ok (),
        [ApiCall.openVaultCall path, ApiCall.listNotesCall])
    | .error e =>
      ({ v2 with error := some e, isLoading := false }, .error e,
        [ApiCall.openVaultCall path, ApiCall.listNotesCall])

/-- `refreshNotes()`: return immediately unless an open vault is
recorded; otherwise reload the note list (an `api.listNotes` rejection
propagates to the caller). -/
def refreshNotes (listResult : Except String (List NoteMeta))
    (v : VaultStoreState) :
    VaultStoreState × Except String Unit × List ApiCall :=
  match v.vaultInfo with
  | none => (v, .ok (), [])
  | some info =>
    if info.is_open then
      match listResult with
      | .ok ns => ({ v with notes := ns }, .ok (), [ApiCall.listNotesCall])
      | .error e => (v, .error e, [ApiCall.listNotesCall])
    else (v, .ok (), [])

/-- The writable stores of the editor store module:
`currentNote`, `backlinks`, `isDirty`, `isSaving`. -/
structure EditorStoreState where
  currentNote : Option Note
  backlinks : List Backlink
  isDirty : Bool
  isSaving : Bool
deriving DecidableEq, Repr

/-- Environment for one `saveCurrentNote` invocation. -/
structure SaveEnv where
  saveResult : Except String NoteMeta
  listResult : Except String (List NoteMeta)

/-- Environment for one `deleteCurrentNote` invocation. -/
structure DeleteEnv where
  deleteResult : Except String Unit
  listResult : Except String (List NoteMeta)

/-- `saveCurrentNote()`: return immediately when no note is open;
otherwise save the current note's path and content, clear `isDirty`,
refresh the vault note list, and reset `isSaving` in `finally` (plugin
event emission carries no store state and is omitted). -/
def saveCurrentNote (env : SaveEnv) (s : EditorStoreState)
    (v : VaultStoreState) :
    EditorStoreState × VaultStoreState × Except String Unit × List ApiCall :=
  match s.currentNote with
  | none => (s, v, .ok (), [])
  | some cur =>
    let s1 := { s with isSaving := true }
    match env.saveResult with
    | .error e =>
      ({ s1 with isSaving := false }, v, .error e,
        [ApiCall.saveNoteCall cur.path cur.content])
    | .ok _ =>
      let s2 := { s1 with isDirty := false }
      let (v2, r, t) := refreshNotes env.listResult v
      ({ s2 with isSaving := false }, v2, r,
        ApiCall.saveNoteCall cur.path cur.content :: t)

/-- `deleteCurrentNote()`: return immediately when no note is open;
otherwise delete by path, clear `currentNote`, `backlinks` and
`isDirty`, then refresh the vault note list. -/
def deleteCurrentNote (env : DeleteEnv) (s : EditorStoreState)
    (v : VaultStoreState) :
    EditorStoreState × VaultStoreState × Except String Unit × List ApiCall :=
  match s.currentNote with
  | none => (s, v, .ok (), [])
  | some cur =>
    match env.deleteResult with
    | .error e => (s, v, .error e, [ApiCall.deleteNoteCall cur.path])
    | .ok _ =>
      let s2 := { s with
                  currentNote := none,
                  backlinks := [],
                  isDirty := false }
      let (v2, r, t) := refreshNotes env.listResult v
      (s2, v2, r, ApiCall.deleteNoteCall cur.path :: t)

/-- C8: when `api.openVault` rejects, the vault store keeps its prior
`vaultInfo` and `notes`, records the message in `error`, resets
`isLoading`, re-throws the exception, and issues no further backend
call. -/
theorem openVault_error_frame (env : OpenVaultEnv) (path : String)
    (v : VaultStoreState) (e : String)
    (h : env.openResult = Except.error e) :
    openVault env path v =
      ({ v with isLoading := false, error := some e }, .error e,
        [ApiCall.openVaultCall path]) := by
  simp [openVault, h]

/-- Witness for C8 at a concrete failing `open_vault`. -/
theorem openVault_error_frame_witness :
    openVault
        { openResult := Except.error "NotADirectory",
          listResult := Except.ok [] }
        "/tmp/not-a-dir"
        { vaultInfo := none, notes := [], isLoading := false,
          error := none } =
      ({ vaultInfo := none, notes := [], isLoading := false,
          error := some "NotADirectory" }, Except.error "NotADirectory",
        [ApiCall.openVaultCall "/tmp/not-a-dir"]) :=
  openVault_error_frame _ _ _ "NotADirectory" rfl

/-- C9: with no note open (`currentNote = null`), `saveCurrentNote` and
`deleteCurrentNote` are no-ops: no backend call is issued and the
editor state (and vault state) is returned unchanged. -/
theorem no_current_note_noop (senv : SaveEnv) (denv : DeleteEnv)
    (s : EditorStoreState) (v : VaultStoreState)
    (h : s.currentNote = none) :
    saveCurrentNote senv s v = (s, v, .ok (), []) ∧
    deleteCurrentNote denv s v = (s, v, .ok (), []) := by
  constructor
  · simp [saveCurrentNote, h]
  · simp [deleteCurrentNote, h]

/-- Witness for C9 at concrete states. -/
theorem no_current_note_noop_witness :
    saveCurrentNote
        { saveResult := Except.error "unused", listResult := Except.ok [] }
        { currentNote := none, backlinks := [], isDirty := true,
          isSaving := false }
        { vaultInfo := none, notes := [], isLoading := false,
          error := none } =
      ({ currentNote := none, backlinks := [], isDirty := true,
          isSaving := false },
        { vaultInfo := none, notes := [], isLoading := false,
          error := none }, .ok (), []) ∧
    deleteCurrentNote
        { deleteResult := Except.ok (), listResult := Except.ok [] }
        { currentNote := none, backlinks := [], isDirty := true,
          isSaving := false }
        { vaultInfo := none, notes := [], isLoading := false,
          error := none } =
      ({ currentNote := none, backlinks := [], isDirty := true,
          isSaving := false },
        { vaultInfo := none, notes := [], isLoading := false,
          error := none }, .ok (), []) :=
  no_current_note_noop _ _ _ _ rfl

/-! ## The `save_note` / `get_note` backend of the E2E fixture
(the Tauri mock in the test fixtures file). The real Rust commands are
not under `src/`; the claimed round-trip is settled against this cited
mock. -/

/-- A note record of the mock backend (the fixture's `mockNotes`
entries). -/
structure MockNote where
  id : Nat
  path : String
  title : String
  content : String
  word_count : Nat
  created_at : String
  modified_at : String
  tags : List String
deriving DecidableEq, Repr

/-- The mock `save_note` command: find the first note with the given
path and, if present, overwrite its content and modification time; a
missing path is silently ignored. Returns the updated list and the
found note (`undefined` → `none`). `now` is the `new Date()`
timestamp. -/
def mock_save_note : List MockNote → String → String → String →
    List MockNote × Option MockNote
  | [], _, _, _ => ([], none)
  | n :: rest, path, content, now =>
    if n.path == path then
      ({ n with content := content, modified_at := now } :: rest,
        some { n with content := content, modified_at := now })
    else
      let (rest2, found) := mock_save_note rest path content now
      (n :: rest2, found)

/-- The mock `get_note` command: return the first note with the given
path, or throw "Note not found". -/
def mock_get_note (notes : List MockNote) (path : String) :
    Except String MockNote :=
  match notes.find? (fun n => n.path == path) with
  | some n => Except.ok n
  | none => Except.error "Note not found"

/-- The fixture's `mockNotes` array. -/
def mockNotes : List MockNote :=
  [{ id := 1, path := "welcome.md", title := "Welcome",
     content := "# Welcome\n\nThis is a test note with a [[link-target]] inside.",
     word_count := 10, created_at := "2026-01-30T10:00:00Z",
     modified_at := "2026-01-30T10:00:00Z", tags := ["test", "welcome"] },
   { id := 2, path := "link-target.md", title := "Link Target",
     content := "# Link Target\n\nThis note is linked from [[welcome]].",
     word_count := 8, created_at := "2026-01-30T11:00:00Z",
     modified_at := "2026-01-30T11:00:00Z", tags := ["test"] },
   { id := 3, path := "untagged.md", title := "Untagged Note",
     content := "# Untagged\n\nThis note has no tags.",
     word_count := 6, created_at := "2026-01-30T12:00:00Z",
     modified_at := "2026-01-30T12:00:00Z", tags := [] }]

/-- C7 counterexample: against the mock backend state, saving to a path
at which no note exists is a silent no-op, and the subsequent
`get_note` throws "Note not found" instead of yielding the saved
content — the round-trip fails for such paths. -/
theorem save_get_roundtrip_counterexample :
    mock_get_note
        (mock_save_note mockNotes "missing.md" "hello"
          "2026-02-14T00:00:00Z").1 "missing.md" =
      Except.error "Note not found" := by
  rfl

/-- C7 amended: for every backend note list, every path at which a note
exists, and every content string, `save_note` then `get_note` yields a
note whose content is exactly the saved string. -/
theorem save_get_roundtrip (notes : List MockNote) (p c now : String)
    (h : (notes.find? (fun n => n.path == p)).isSome = true) :
    ∃ n, mock_get_note (mock_save_note notes p c now).1 p = Except.ok n ∧
      n.content = c := by
  induction notes with
  | nil => simp [List.find?] at h
  | cons n rest ih =>
    by_cases hp : n.path == p
    · refine ⟨{ n with content := c, modified_at := now }, ?_, rfl⟩
      simp [mock_save_note, hp, mock_get_note, List.find?_cons_of_pos _ hp]
    · have h' : (rest.find? (fun x => x.path == p)).isSome = true := by
        rw [List.find?_cons_of_neg] at h
        · exact h
        · simpa using hp
      obtain ⟨m, hm, hc⟩ := ih h'
      refine ⟨m, ?_, hc⟩
      rcases hrec : mock_save_note rest p c now with ⟨rest2, found⟩
      rw [hrec] at hm
      simp only [mock_save_note, hp, hrec, Bool.false_eq_true, if_false]
      rw [mock_get_note] at hm ⊢
      rw [List.find?_cons_of_neg]
      · exact hm
      · simpa using hp

/-- Witness for the C7 amended theorem at the fixture state. -/
theorem save_get_roundtrip_witness :
    ∃ n, mock_get_note
        (mock_save_note mockNotes "welcome.md" "# Rewritten"
          "2026-02-14T00:00:00Z").1 "welcome.md" = Except.ok n ∧
      n.content = "# Rewritten" :=
  save_get_roundtrip mockNotes "welcome.md" "# Rewritten"
    "2026-02-14T00:00:00Z" (by rfl)

/-! ## Plugin manifest validation (`src/lib/plugins/loader.ts`).

Manifests arrive as parsed JSON of unknown shape, so the embedding works
over a model of JavaScript runtime values. Object literals are assumed
duplicate-key-free (JSON with duplicate keys is out of scope). -/

/-- A JavaScript runtime value as far as `validateManifest` observes it. -/
inductive JSValue where
  | nullV
  | undefinedV
  | boolV (b : Bool)
  | numV (n : Int)
  | strV (s : String)
  | arrV (xs : List JSValue)
  | objV (fields : List (String × JSValue))

/-- JavaScript `typeof`. Note `typeof null === "object"` and arrays are
objects. -/
def typeofJS : JSValue → String
  | .nullV => "object"
  | .undefinedV => "undefined"
  | .boolV _ => "boolean"
  | .numV _ => "number"
  | .strV _ => "string"
  | .arrV _ => "object"
  | .objV _ => "object"

/-- JavaScript truthiness. -/
def truthy : JSValue → Bool
  | .nullV => false
  | .undefinedV => false
  | .boolV b => b
  | .numV n => !(n == 0)
  | .strV s => !s.isEmpty
  | .arrV _ => true
  | .objV _ => true

/-- Property access `v[k]`: a missing key (and any key used here on a
non-object) yields `undefined`. -/
def getField (v : JSValue) (k : String) : JSValue :=
  match v with
  | .objV fs =>
    match fs.find? (fun f => f.1 == k) with
    | some f => f.2
    | none => .undefinedV
  | _ => .undefinedV

/-- `v === undefined`. -/
def isUndef : JSValue → Bool
  | .undefinedV => true
  | _ => false

/-- `Array.isArray(v)`. -/
def isArrayJS : JSValue → Bool
  | .arrV _ => true
  | _ => false

/-- `Object.entries`: the fields of an object, or index/element pairs of
an array, in order. -/
def entriesJS : JSValue → List (String × JSValue)
  | .objV fs => fs
  | .arrV xs => xs.enum.map (fun p => (toString p.1, p.2))
  | _ => []

/-- One character of the `/^[a-z0-9-]+$/` class. -/
def isKebabChar (c : Char) : Bool :=
  ('a' ≤ c && c ≤ 'z') || ('0' ≤ c && c ≤ '9') || c == '-'

/-- `id.match(/^[a-z0-9-]+$/)` is non-null. -/
def matchesKebab (s : String) : Bool :=
  !s.isEmpty && s.data.all isKebabChar

/-- Split a character list at every dot (the groups between dots, in
order; n dots yield n+1 groups). -/
def splitDots : List Char → List (List Char)
  | [] => [[]]
  | c :: rest =>
    if c = '.' then [] :: splitDots rest
    else
      match splitDots rest with
      | g :: gs => (c :: g) :: gs
      | [] => [[c]]

/-- `version.match(/^\d+\.\d+\.\d+$/)` is non-null: exactly three
non-empty all-digit runs separated by dots. -/
def matchesVersion (s : String) : Bool :=
  match splitDots s.data with
  | [a, b, c] =>
    !a.isEmpty && a.all Char.isDigit &&
    !b.isEmpty && b.all Char.isDigit &&
    !c.isEmpty && c.all Char.isDigit
  | _ => false

/-- The `VALID_PERMISSIONS` array of the loader. -/
def validPermissions : List String :=
  ["note:read", "note:write", "ui:sidebar", "ui:statusbar", "ui:command",
   "storage"]

/-- The four recognised setting types. -/
def settingTypes : List String := ["boolean", "string", "number", "select"]

/-- `VALID_PERMISSIONS.includes(perm)`: `===` comparison, so only these
six strings qualify. -/
def permOk : JSValue → Bool
  | .strV q => validPermissions.contains q
  | _ => false

/-- The `switch (d.type)` of `validateSettingDef`: the type-specific
check of the default (and, for `select`, of `options`); an unlisted type
falls through the switch to `return true` (unreachable behind the
`includes` guard). -/
def settingCaseOk (t : String) (d : JSValue) : Bool :=
  if t == "boolean" then typeofJS (getField d "default") == "boolean"
  else if t == "string" then typeofJS (getField d "default") == "string"
  else if t == "number" then typeofJS (getField d "default") == "number"
  else if t == "select" then
    typeofJS (getField d "default") == "string" &&
      isArrayJS (getField d "options")
  else true

/-- `validateSettingDef(def)`: truthy object, recognised `type`, a
present `default`, then the type-specific check. -/
def validateSettingDef (d : JSValue) : Bool :=
  if !truthy d || typeofJS d != "object" then false
  else
    match getField d "type" with
    | .strV t =>
      if !settingTypes.contains t then false
      else if isUndef (getField d "default") then false
      else settingCaseOk t d
    | _ => false

/-- `validateManifest(manifest)`. `Except.error` models the uncaught
`TypeError` that `Object.entries(null)` raises after `settings: null`
slips past the `typeof` guard (`typeof null === "object"`). -/
def validateManifest (manifest : JSValue) : Except String Bool :=
  if !truthy manifest || typeofJS manifest != "object" then Except.ok false
  else if !(match getField manifest "id" with
            | .strV s => matchesKebab s
            | _ => false) then Except.ok false
  else if !(match getField manifest "name" with
            | .strV s => !s.isEmpty
            | _ => false) then Except.ok false
  else if !(match getField manifest "version" with
            | .strV s => matchesVersion s
            | _ => false) then Except.ok false
  else if typeofJS (getField manifest "description") != "string" then
    Except.ok false
  else if typeofJS (getField manifest "author") != "string" then
    Except.ok false
  else if typeofJS (getField manifest "main") != "string" then
    Except.ok false
  else
    match getField manifest "permissions" with
    | .arrV perms =>
      if !perms.all permOk then Except.ok false
      else
        match getField manifest "settings" with
        | .undefinedV => Except.ok true
        | .nullV => Except.error "TypeError: Object.entries called on null"
        | .arrV xs =>
          if xs.all validateSettingDef then Except.ok true
          else Except.ok false
        | .objV fs =>
          if fs.all (fun e => validateSettingDef e.2) then Except.ok true
          else Except.ok false
        | _ => Except.ok false
    | _ => Except.ok false

/-- The claim's reading of a valid setting: a recognised type whose
default value is of that type (`select` defaults are strings). -/
def defaultMatchesType : String → JSValue → Bool
  | "boolean", .boolV _ => true
  | "string", .strV _ => true
  | "number", .numV _ => true
  | "select", .strV _ => true
  | _, _ => false

/-- The claim's condition on one declared setting. -/
def specSettingOk (d : JSValue) : Bool :=
  match getField d "type" with
  | .strV t => settingTypes.contains t &&
      defaultMatchesType t (getField d "default")
  | _ => false

/-- A value whose `typeof` is "string" is a string value. -/
theorem typeof_string_exists (v : JSValue) (h : typeofJS v = "string") :
    ∃ s, v = JSValue.strV s := by
  cases v
  case strV s => exact ⟨s, rfl⟩
  all_goals simp [typeofJS] at h

/-- A string-field guard that passed yields the string and its check. -/
theorem match_strfield_exists (v : JSValue) (f : String → Bool)
    (h : (match v with | JSValue.strV s => f s | _ => false) = true) :
    ∃ s, v = JSValue.strV s ∧ f s = true := by
  cases v
  case strV s => exact ⟨s, rfl, h⟩
  all_goals simp at h

/-- Membership in `settingTypes` spelt out. -/
theorem mem_settingTypes (t : String) (h : settingTypes.contains t = true) :
    t = "boolean" ∨ t = "string" ∨ t = "number" ∨ t = "select" := by
  simpa [settingTypes] using h

/-- A setting accepted by `validateSettingDef` satisfies the claim's
condition: recognised type and a default of that type. -/
theorem validateSettingDef_spec (d : JSValue)
    (h : validateSettingDef d = true) : specSettingOk d = true := by
  rw [validateSettingDef] at h
  split at h
  · exact absurd h (by decide)
  · rcases ht : getField d "type" with _ | _ | b | n | t | xs | fs <;>
      simp only [ht] at h
    case strV =>
      split at h
      · exact absurd h (by decide)
      · rename_i hcont
        split at h
        · exact absurd h (by decide)
        · have hc : settingTypes.contains t = true := by
            cases hb : settingTypes.contains t
            · exact absurd (by rw [hb]; rfl) hcont
            · rfl
          simp only [specSettingOk, ht, hc, Bool.true_and]
          rcases mem_settingTypes t hc with rfl | rfl | rfl | rfl <;>
            simp [settingCaseOk] at h
          · rcases hd : getField d "default" with _ | _ | b | n | s | x | f <;>
              simp [hd, typeofJS] at h <;> simp [defaultMatchesType, hd]
          · rcases hd : getField d "default" with _ | _ | b | n | s | x | f <;>
              simp [hd, typeofJS] at h <;> simp [defaultMatchesType, hd]
          · rcases hd : getField d "default" with _ | _ | b | n | s | x | f <;>
              simp [hd, typeofJS] at h <;> simp [defaultMatchesType, hd]
          · obtain ⟨h1, h2⟩ := h
            rcases hd : getField d "default" with _ | _ | b | n | s | x | f <;>
              simp [hd, typeofJS] at h1 <;> simp [defaultMatchesType, hd]
    all_goals exact absurd h (by decide)

/-- A Boolean whose negation is refuted is true. -/
theorem bool_of_not_not (b : Bool) (h : ¬((!b) = true)) : b = true := by
  cases b
  · exact absurd rfl h
  · rfl

/-- C10: `validateManifest` accepts only manifests satisfying all the
claimed conditions: kebab-case `id`, non-empty string `name`, numeric
`x.y.z` `version`, string `description` / `author` / `main`, an array of
known permissions, and (when `settings` is declared) only settings with
a recognised type and a default of that type. -/
theorem validateManifest_only_if (m : JSValue)
    (h : validateManifest m = Except.ok true) :
    (∃ s, getField m "id" = JSValue.strV s ∧ matchesKebab s = true) ∧
    (∃ s, getField m "name" = JSValue.strV s ∧ s.isEmpty = false) ∧
    (∃ s, getField m "version" = JSValue.strV s ∧ matchesVersion s = true) ∧
    (∃ s, getField m "description" = JSValue.strV s) ∧
    (∃ s, getField m "author" = JSValue.strV s) ∧
    (∃ s, getField m "main" = JSValue.strV s) ∧
    (∃ ps, getField m "permissions" = JSValue.arrV ps ∧
      ∀ p ∈ ps, ∃ q, p = JSValue.strV q ∧ q ∈ validPermissions) ∧
    (getField m "settings" = JSValue.undefinedV ∨
      ∀ e ∈ entriesJS (getField m "settings"), specSettingOk e.2 = true) := by
  rw [validateManifest] at h
  split at h
  · simp at h
  · rename_i hguard
    split at h
    · simp at h
    · rename_i hid
      split at h
      · simp at h
      · rename_i hname
        split at h
        · simp at h
        · rename_i hversion
          split at h
          · simp at h
          · rename_i hdesc
            split at h
            · simp at h
            · rename_i hauthor
              split at h
              · simp at h
              · rename_i hmain
                split at h
                · rename_i perms hpeq
                  split at h
                  · simp at h
                  · rename_i hpall
                    refine ⟨?_, ?_, ?_, ?_, ?_, ?_, ?_, ?_⟩
                    · exact match_strfield_exists _ _ (bool_of_not_not _ hid)
                    · obtain ⟨s, hs, hf⟩ :=
                        match_strfield_exists _ _ (bool_of_not_not _ hname)
                      exact ⟨s, hs, by simpa using hf⟩
                    · exact match_strfield_exists _ _ (bool_of_not_not _ hversion)
                    · exact typeof_string_exists _ (by simpa using hdesc)
                    · exact typeof_string_exists _ (by simpa using hauthor)
                    · exact typeof_string_exists _ (by simpa using hmain)
                    · refine ⟨perms, hpeq, fun p hp => ?_⟩
                      have hpk : permOk p = true :=
                        List.all_eq_true.mp (bool_of_not_not _ hpall) p hp
                      cases p
                      case strV q =>
                        exact ⟨q, rfl,
                          by simpa [permOk, validPermissions] using hpk⟩
                      all_goals simp [permOk] at hpk
                    · split at h
                      · rename_i hseq
                        exact Or.inl hseq
                      · simp at h
                      · rename_i xs hseq
                        split at h
                        · rename_i hall
                          refine Or.inr fun e he => ?_
                          rw [hseq] at he
                          simp only [entriesJS] at he
                          obtain ⟨⟨i, x⟩, hmem, rfl⟩ := List.mem_map.mp he
                          have hx : x ∈ xs := by
                            rw [List.enum_eq_zip_range] at hmem
                            exact (List.of_mem_zip hmem).2
                          exact validateSettingDef_spec _
                            (List.all_eq_true.mp hall x hx)
                        · simp at h
                      · rename_i fs hseq
                        split at h
                        · rename_i hall
                          refine Or.inr fun e he => ?_
                          rw [hseq] at he
                          simp only [entriesJS] at he
                          exact validateSettingDef_spec _
                            (List.all_eq_true.mp hall e he)
                        · simp at h
                      · simp at h
                · simp at h

/-- The built-in "Word Count" plugin manifest as a runtime value. -/
def wordCountManifest : JSValue :=
  JSValue.objV
    [("id", JSValue.strV "word-count"),
     ("name", JSValue.strV "Word Count"),
     ("version", JSValue.strV "1.0.0"),
     ("description",
       JSValue.strV "Shows word count, character count, and reading time"),
     ("author", JSValue.strV "Chronicle"),
     ("main", JSValue.strV "builtin"),
     ("permissions",
       JSValue.arrV [JSValue.strV "note:read", JSValue.strV "ui:statusbar"]),
     ("settings", JSValue.objV
       [("showCharCount", JSValue.objV
          [("type", JSValue.strV "boolean"),
           ("default", JSValue.boolV true),
           ("label", JSValue.strV "Show character count")]),
        ("showReadingTime", JSValue.objV
          [("type", JSValue.strV "boolean"),
           ("default", JSValue.boolV true),
           ("label", JSValue.strV "Show reading time")]),
        ("wordsPerMinute", JSValue.objV
          [("type", JSValue.strV "number"),
           ("default", JSValue.numV 200),
           ("label", JSValue.strV "Words per minute"),
           ("min", JSValue.numV 100),
           ("max", JSValue.numV 400)])])]

/-- Witness for C10 at the built-in "Word Count" manifest, which the
validator accepts. -/
theorem validateManifest_only_if_witness :
    (∃ s, getField wordCountManifest "id" = JSValue.strV s ∧
      matchesKebab s = true) ∧
    (∃ s, getField wordCountManifest "name" = JSValue.strV s ∧
      s.isEmpty = false) ∧
    (∃ s, getField wordCountManifest "version" = JSValue.strV s ∧
      matchesVersion s = true) ∧
    (∃ s, getField wordCountManifest "description" = JSValue.strV s) ∧
    (∃ s, getField wordCountManifest "author" = JSValue.strV s) ∧
    (∃ s, getField wordCountManifest "main" = JSValue.strV s) ∧
    (∃ ps, getField wordCountManifest "permissions" = JSValue.arrV ps ∧
      ∀ p ∈ ps, ∃ q, p = JSValue.strV q ∧ q ∈ validPermissions) ∧
    (getField wordCountManifest "settings" = JSValue.undefinedV ∨
      ∀ e ∈ entriesJS (getField wordCountManifest "settings"),
        specSettingOk e.2 = true) :=
  validateManifest_only_if wordCountManifest (by rfl)

/-! ## The wiki-link recogniser
(`WIKI_LINK_RE = /\[\[([^\]|]+)(?:\|([^\]]+))?\]\]/g` of
`src/lib/components/editor/wikiLinkPlugin.ts`).

The regex is deterministic: the greedy character classes stop exactly at
the characters the following literal needs, so no backtracking can
produce a different match. `wikiMatchAt` decides whether the regex
matches at a given position; the scan tries each position left to right
and resumes after each match, exactly as repeated `exec` with the `g`
flag does. -/

/-- One character of the first class `[^\]|]`. -/
def notTargetEnd (c : Char) : Bool := c != ']' && c != '|'

/-- One character of the second class `[^\]]`. -/
def notRBracket (c : Char) : Bool := c != ']'

/-- One regex match: start index, capture 1 (target), optional capture 2
(display), and the length of the whole matched token. -/
structure WikiMatch where
  index : Nat
  target : String
  display : Option String
  length : Nat
deriving DecidableEq, Repr

/-- Attempt the regex at the head of `cs`: `[[`, a non-empty run free of
`]` and `|`, then either `]]` or `|`, a non-empty run free of `]`, and
`]]`. -/
def wikiMatchAt : List Char → Option (String × Option String × Nat)
  | '[' :: '[' :: rest =>
    if (rest.takeWhile notTargetEnd).isEmpty then none
    else
      match rest.drop (rest.takeWhile notTargetEnd).length with
      | ']' :: ']' :: _ =>
        some (⟨rest.takeWhile notTargetEnd⟩, none,
          (rest.takeWhile notTargetEnd).length + 4)
      | '|' :: rest2 =>
        if (rest2.takeWhile notRBracket).isEmpty then none
        else
          match rest2.drop (rest2.takeWhile notRBracket).length with
          | ']' :: ']' :: _ =>
            some (⟨rest.takeWhile notTargetEnd⟩,
              some ⟨rest2.takeWhile notRBracket⟩,
              (rest.takeWhile notTargetEnd).length +
                (rest2.takeWhile notRBracket).length + 5)
          | _ => none
      | _ => none
  | _ => none

/-- The global scan: try each position, emit the match and resume after
it. `fuel` only bounds the iteration count; every step consumes at
least one character, so `cs.length` steps always suffice. -/
def wikiScanAux (fuel : Nat) (cs : List Char) (i : Nat) : List WikiMatch :=
  match fuel with
  | 0 => []
  | fuel' + 1 =>
    match cs with
    | [] => []
    | c :: rest =>
      match wikiMatchAt (c :: rest) with
      | some (t, d, len) =>
        { index := i, target := t, display := d, length := len } ::
          wikiScanAux fuel' ((c :: rest).drop len) (i + len)
      | none => wikiScanAux fuel' rest (i + 1)

/-- All wiki-link tokens of a text, leftmost first. -/
def wikiLinkMatches (s : String) : List WikiMatch :=
  wikiScanAux s.data.length s.data 0

/-- The characters a display capture contributes to the matched token. -/
def displayPart : Option String → List Char
  | none => []
  | some dd => '|' :: dd.data

/-- Structure of one successful regex attempt: non-empty target free of
`]` and `|`, optional non-empty display free of `]`, and the matched
token is literally `[[target]]` or `[[target|display]]`. -/
theorem wikiMatchAt_spec (cs : List Char) (t : String) (d : Option String)
    (len : Nat) (h : wikiMatchAt cs = some (t, d, len)) :
    t.data ≠ [] ∧ (∀ c ∈ t.data, c ≠ ']' ∧ c ≠ '|') ∧
    (∀ dd, d = some dd → dd.data ≠ [] ∧ ∀ c ∈ dd.data, c ≠ ']') ∧
    cs.take len = '[' :: '[' :: (t.data ++ displayPart d ++ [']', ']']) ∧
    0 < len := by
  unfold wikiMatchAt at h
  split at h
  · rename_i rest
    split at h
    · exact absurd h (by simp)
    · rename_i htne
      have htw : rest.takeWhile notTargetEnd ≠ [] := by
        simpa using htne
      have htwpre : rest.takeWhile notTargetEnd =
          rest.take (rest.takeWhile notTargetEnd).length :=
        List.prefix_iff_eq_take.mp (List.takeWhile_prefix _)
      have htwchar : ∀ c ∈ rest.takeWhile notTargetEnd, c ≠ ']' ∧ c ≠ '|' := by
        intro c hc
        have := List.mem_takeWhile_imp hc
        simp [notTargetEnd] at this
        exact this
      generalize heq : rest.drop (rest.takeWhile notTargetEnd).length =
        dropped at h
      split at h
      · rename_i tail
        obtain ⟨h1, h2, h3⟩ : (⟨rest.takeWhile notTargetEnd⟩ : String) = t ∧
            (none : Option String) = d ∧
            (rest.takeWhile notTargetEnd).length + 4 = len := by
          simpa using h
        subst h1; subst h2; subst h3
        refine ⟨htw, htwchar, ?_, ?_, by omega⟩
        · intro dd hdd; cases hdd
        · show ('[' :: '[' :: rest).take _ = _
          rw [show (rest.takeWhile notTargetEnd).length + 4 =
            ((rest.takeWhile notTargetEnd).length + 2) + 1 + 1 by omega]
          rw [List.take_succ_cons, List.take_succ_cons, List.take_add,
            ← htwpre, heq]
          simp [displayPart]
      · rename_i rest2
        split at h
        · exact absurd h (by simp)
        · rename_i hdne
          have hdw : rest2.takeWhile notRBracket ≠ [] := by
            simpa using hdne
          have hdwpre : rest2.takeWhile notRBracket =
              rest2.take (rest2.takeWhile notRBracket).length :=
            List.prefix_iff_eq_take.mp (List.takeWhile_prefix _)
          have hdwchar : ∀ c ∈ rest2.takeWhile notRBracket, c ≠ ']' := by
            intro c hc
            have := List.mem_takeWhile_imp hc
            simpa [notRBracket] using this
          generalize heq2 : rest2.drop (rest2.takeWhile notRBracket).length =
            dropped2 at h
          split at h
          · rename_i tail
            obtain ⟨h1, h2, h3⟩ : (⟨rest.takeWhile notTargetEnd⟩ : String) = t ∧
                (some (⟨rest2.takeWhile notRBracket⟩ : String) : Option String) = d ∧
                (rest.takeWhile notTargetEnd).length +
                  (rest2.takeWhile notRBracket).length + 5 = len := by
              simpa using h
            subst h1; subst h2; subst h3
            refine ⟨htw, htwchar, ?_, ?_, by omega⟩
            · intro dd hdd
              cases hdd
              exact ⟨hdw, hdwchar⟩
            · show ('[' :: '[' :: rest).take _ = _
              rw [show (rest.takeWhile notTargetEnd).length +
                  (rest2.takeWhile notRBracket).length + 5 =
                  ((rest.takeWhile notTargetEnd).length +
                    ((rest2.takeWhile notRBracket).length + 3)) + 1 + 1 by omega]
              rw [List.take_succ_cons, List.take_succ_cons, List.take_add,
                ← htwpre, heq]
              rw [show (rest2.takeWhile notRBracket).length + 3 =
                  ((rest2.takeWhile notRBracket).length + 2) + 1 by omega]
              rw [List.take_succ_cons, List.take_add, ← hdwpre, heq2]
              simp [displayPart]
          · exact absurd h (by simp)
      · exact absurd h (by simp)
  · exact absurd h (by simp)

/-- Soundness of the scan: every emitted match starts at or after the
scan position and its token, read back from the text, is literally
`[[target]]` or `[[target|display]]` with the captured parts. -/
theorem wikiScanAux_sound (fuel : Nat) :
    ∀ cs i m, m ∈ wikiScanAux fuel cs i →
      i ≤ m.index ∧
      m.target.data ≠ [] ∧
      (∀ c ∈ m.target.data, c ≠ ']' ∧ c ≠ '|') ∧
      (∀ d, m.display = some d → d.data ≠ [] ∧ ∀ c ∈ d.data, c ≠ ']') ∧
      (cs.drop (m.index - i)).take m.length =
        '[' :: '[' :: (m.target.data ++ displayPart m.display ++
          [']', ']']) := by
  induction fuel with
  | zero => intro cs i m hm; simp [wikiScanAux] at hm
  | succ fuel ih =>
    intro cs i m hm
    cases cs with
    | nil => simp [wikiScanAux] at hm
    | cons c rest =>
      rcases hw : wikiMatchAt (c :: rest) with _ | ⟨t, d, len⟩
      · simp only [wikiScanAux, hw] at hm
        obtain ⟨h1, h2, h3, h4, h5⟩ := ih rest (i + 1) m hm
        refine ⟨by omega, h2, h3, h4, ?_⟩
        have hidx : m.index - i = (m.index - (i + 1)) + 1 := by omega
        rw [hidx, List.drop_succ_cons]
        exact h5
      · simp only [wikiScanAux, hw] at hm
        obtain ⟨ht, hchars, hd, htake, hlen⟩ := wikiMatchAt_spec _ _ _ _ hw
        rcases List.mem_cons.mp hm with rfl | hm'
        · exact ⟨le_refl _, ht, hchars, hd, by simpa using htake⟩
        · obtain ⟨h1, h2, h3, h4, h5⟩ := ih _ _ m hm'
          refine ⟨by omega, h2, h3, h4, ?_⟩
          have hidx : m.index - i = len + (m.index - (i + len)) := by omega
          rw [hidx, ← List.drop_drop]
          exact h5

/-- C6 amended: every substring the recogniser emits as a wiki-link
token is literally `[[target]]` or `[[target|display]]` where the
target is non-empty and free of `]` and `|` and the display, when
present, is non-empty and free of `]`; the captured target and display
are exactly the bracketed parts. (The single-line clause of the claim
does not hold — see the counterexample — because the regex character
classes admit line breaks.) -/
theorem wikiLinkMatches_shape (s : String) (m : WikiMatch)
    (hm : m ∈ wikiLinkMatches s) :
    m.target.data ≠ [] ∧
    (∀ c ∈ m.target.data, c ≠ ']' ∧ c ≠ '|') ∧
    (∀ d, m.display = some d → d.data ≠ [] ∧ ∀ c ∈ d.data, c ≠ ']') ∧
    (s.data.drop m.index).take m.length =
      '[' :: '[' :: (m.target.data ++ displayPart m.display ++
        [']', ']']) := by
  obtain ⟨-, h2, h3, h4, h5⟩ :=
    wikiScanAux_sound s.data.length s.data 0 m hm
  exact ⟨h2, h3, h4, by simpa using h5⟩

/-- C6 counterexample: the token `[[a\nb]]` spans a line break, yet the
recogniser accepts it (the character class `[^\]|]` matches `\n`),
refuting the claim that a token never spans a line break. -/
theorem wikiLink_crosses_newline :
    wikiLinkMatches "[[a\nb]]" =
      [{ index := 0, target := "a\nb", display := none, length := 7 }] ∧
    '\n' ∈ "a\nb".data := by
  constructor
  · rfl
  · simp

/-- Witness for the C6 amended theorem at a concrete two-token text. -/
theorem wikiLinkMatches_shape_witness :
    ({ index := 4, target := "a", display := none, length := 5 } :
        WikiMatch).target.data ≠ [] ∧
    (∀ c ∈ ({ index := 4, target := "a", display := none, length := 5 } :
        WikiMatch).target.data, c ≠ ']' ∧ c ≠ '|') ∧
    (∀ d, ({ index := 4, target := "a", display := none, length := 5 } :
        WikiMatch).display = some d →
      d.data ≠ [] ∧ ∀ c ∈ d.data, c ≠ ']') ∧
    (("see [[a]] and [[b|c]]" : String).data.drop 4).take 5 =
      '[' :: '[' :: (("a" : String).data ++ displayPart none ++
        [']', ']']) :=
  wikiLinkMatches_shape "see [[a]] and [[b|c]]"
    { index := 4, target := "a", display := none, length := 5 } (by decide)

end Chronicle
